import Mathlib

/-!
Verification of the Metadata2File file organizer.

This file gives a shallow embedding in Lean of the core logic of the
repository (src/main.py and src/Metadata2File.py): the byte-signature
classifier FileProcessor.detect_file_type, the metadata decoder wrappers
get_image_info, get_video_info, get_audio_info and get_document_info, the
filename builder create_organized_filename, and the organizing pipeline
FileProcessor.process_and_organize_files with its collision-resolution
loop and statistics accounting.

Modelling conventions: byte strings are lists of Nat; all file system
reads and all calls into external decoding libraries (PIL, cv2, mutagen,
PyPDF2, docx, pptx) are passed in as explicit outcome values of type
Except String a, where the error carries the Python exception text; the
destination file system is the list of paths that exist; paths use the
slash separator. Logging and GUI reporting are observers with no effect
on the computed results and are omitted (the default logger of
FileProcessor is None, so the embedded code paths carry no logging).
-/

namespace Metadata2File

/-- Decimal digit to character, as used by Python str on a digit. -/
def digitToChar : Nat → Char
  | 0 => '0'
  | 1 => '1'
  | 2 => '2'
  | 3 => '3'
  | 4 => '4'
  | 5 => '5'
  | 6 => '6'
  | 7 => '7'
  | 8 => '8'
  | 9 => '9'
  | _ => '*'

/-- Fuel-driven rendering of a natural number in decimal, most significant
digit first. With fuel greater than n this is the decimal form of n. -/
def toDecimalAux : Nat → Nat → List Char
  | 0, _ => []
  | fuel + 1, n =>
    if n < 10 then [digitToChar n]
    else toDecimalAux fuel (n / 10) ++ [digitToChar (n % 10)]

/-- Python str applied to a nonnegative integer: its decimal representation. -/
def pyStr (n : Nat) : String := ⟨toDecimalAux (n + 1) n⟩

/-- Value of a decimal digit character. -/
def charToDigit (c : Char) : Nat := c.toNat - 48

/-- Parse a digit list back to a number; left inverse of the rendering. -/
def ofDecimal (cs : List Char) : Nat :=
  cs.foldl (fun acc c => acc * 10 + charToDigit c) 0

/-- Python str.lower, adequate for the ASCII extensions the code compares. -/
def pyLower (s : String) : String := ⟨s.data.map Char.toLower⟩

/-- Index of the last dot in a character list, if any. -/
def lastDotIdxAux : List Char → Nat → Option Nat
  | [], _ => none
  | c :: rest, i =>
    match lastDotIdxAux rest (i + 1) with
    | some j => some j
    | none => if c = '.' then some i else none

/-- Index of the last dot in the character list of a name. -/
def lastDotIdx (cs : List Char) : Option Nat := lastDotIdxAux cs 0

/-- Final path component, as os.path.basename and pathlib name give for the
slash-separated paths produced by the tree walk. -/
def pyBasename (p : String) : String :=
  ⟨(p.data.reverse.takeWhile (fun c => c ≠ '/')).reverse⟩

/-- pathlib PurePath.suffix: the extension of the final component, taken from
the last dot when that dot is neither leading nor trailing, else empty. -/
def pySuffix (p : String) : String :=
  let name := (pyBasename p).data
  match lastDotIdx name with
  | some i => if 0 < i ∧ i < name.length - 1 then ⟨name.drop i⟩ else ""
  | none => ""

/-- pathlib PurePath.stem: the final component without its suffix. -/
def pyStem (p : String) : String :=
  let name := (pyBasename p).data
  match lastDotIdx name with
  | some i => if 0 < i ∧ i < name.length - 1 then ⟨name.take i⟩ else ⟨name⟩
  | none => ⟨name⟩

/-- os.path.splitext restricted to plain file names without separators, as
the pipeline applies it to the freshly built destination file name: split at
the last dot unless every character before that dot is itself a dot. -/
def splitext (name : String) : String × String :=
  match lastDotIdx name.data with
  | none => (name, "")
  | some i =>
    if (name.data.take i).all (fun c => c = '.') then (name, "")
    else (⟨name.data.take i⟩, ⟨name.data.drop i⟩)

/-- os.path.join for the slash-separated paths used throughout. -/
def joinPath (a b : String) : String := a ++ "/" ++ b

/-- The byte-signature table of detect_file_type, in its exact declaration
order; Python dict iteration preserves this insertion order. Each entry is
the prefix, the category and the format tag. -/
def signatures : List (List Nat × String × String) :=
  [ ([0xFF, 0xD8, 0xFF], "Images", "jpeg"),
    ([0x89, 0x50, 0x4E, 0x47, 0x0D, 0x0A, 0x1A, 0x0A], "Images", "png"),
    ([0x47, 0x49, 0x46, 0x38, 0x37, 0x61], "Images", "gif"),
    ([0x47, 0x49, 0x46, 0x38, 0x39, 0x61], "Images", "gif"),
    ([0x42, 0x4D], "Images", "bmp"),
    ([0x66, 0x74, 0x79, 0x70, 0x68, 0x65, 0x69, 0x63], "Images", "heic"),
    ([0x66, 0x74, 0x79, 0x70, 0x68, 0x65, 0x69, 0x78], "Images", "heic"),
    ([0x66, 0x74, 0x79, 0x70, 0x6D, 0x69, 0x66, 0x31], "Images", "heic"),
    ([0x66, 0x74, 0x79, 0x70, 0x6D, 0x73, 0x66, 0x31], "Images", "heic"),
    ([0x52, 0x49, 0x46, 0x46], "Videos", "webp"),
    ([0x00, 0x00, 0x00, 0x18, 0x66, 0x74, 0x79, 0x70, 0x6D, 0x70, 0x34], "Videos", "mp4"),
    ([0x00, 0x00, 0x00, 0x20, 0x66, 0x74, 0x79, 0x70, 0x4D, 0x34, 0x56], "Videos", "mp4"),
    ([0x25, 0x50, 0x44, 0x46], "Documents", "pdf"),
    ([0x50, 0x4B, 0x03, 0x04], "Documents", "office"),
    ([0x49, 0x44, 0x33], "Audio", "mp3"),
    ([0xFF, 0xFB], "Audio", "mp3"),
    ([0xFF, 0xF3], "Audio", "mp3"),
    ([0x66, 0x4C, 0x61, 0x43], "Audio", "flac"),
    ([0x4F, 0x67, 0x67, 0x53], "Audio", "ogg"),
    ([0x50, 0x4B], "Archives", "zip"),
    ([0x52, 0x61, 0x72, 0x21], "Archives", "rar"),
    ([0x37, 0x7A, 0xBC, 0xAF, 0x27, 0x32, 0x37, 0x1C], "Archives", "7z"),
    ([0x4D, 0x5A], "Executables", "exe") ]

/-- The static extension table SUPPORTED_FORMATS, in declaration order. -/
def SUPPORTED_FORMATS : List (String × List String) :=
  [ ("Images", [".jpg", ".jpeg", ".png", ".bmp", ".tiff", ".gif", ".webp", ".heic"]),
    ("Documents", [".pdf", ".docx", ".doc", ".txt", ".pptx", ".ppt"]),
    ("Videos", [".mp4", ".avi", ".mkv", ".mov", ".wmv", ".flv", ".webm"]),
    ("Audio", [".mp3", ".flac", ".wav", ".ogg", ".m4a", ".aac"]),
    ("Archives", [".zip", ".rar", ".7z", ".tar", ".gz"]),
    ("Executables", [".exe", ".msi", ".dmg", ".deb", ".rpm"]) ]

/-- bytes.startswith: the second list is a prefix of the first. -/
def startsWith : List Nat → List Nat → Bool
  | _, [] => true
  | [], _ :: _ => false
  | h :: hs, s :: ss => (h == s) && startsWith hs ss

/-- First entry of the signature table whose byte prefix starts the header;
the loop over the dict in detect_file_type. -/
def findSig (header : List Nat) :
    List (List Nat × String × String) → Option (String × String)
  | [] => none
  | (sig, cat, fmt) :: rest =>
    if startsWith header sig then some (cat, fmt) else findSig header rest

/-- First category of the extension table whose list contains the extension;
the fallback loop over SUPPORTED_FORMATS in detect_file_type. -/
def extLookup (ext : String) : List (String × List String) → Option String
  | [] => none
  | (cat, exts) :: rest => if ext ∈ exts then some cat else extLookup ext rest

/-- FileProcessor.detect_file_type. The read argument is the outcome of
getting the file size and reading its bytes: an exception text on failure,
the raw contents on success; the code keeps the first 32 bytes. Returns the
triple of category, format tag and detection method. -/
def detect_file_type (read : Except String (List Nat)) (filePath : String) :
    String × String × String :=
  match read with
  | Except.error e => ("Error", e, "error")
  | Except.ok contents =>
    let header := contents.take 32
    match findSig header signatures with
    | some (category, format_type) => (category, format_type, "magic_bytes")
    | none =>
      let ext := pyLower (pySuffix filePath)
      match extLookup ext SUPPORTED_FORMATS with
      | some category => (category, ext.drop 1, "file_extension")
      | none => ("Other", "unknown", "unknown")

/-- Outcomes of the external calls made for one file: the byte read used by
detect_file_type, and the four decoder probes. An Except.error carries the
text of the Python exception the call raised. -/
structure Oracles where
  read : Except String (List Nat)
  imageProbe : Except String (Nat × Nat × String)
  videoProbe : Except String (Option (Nat × Nat × Nat))
  audioProbe : Except String (Option (Nat × Nat))
  docProbe : Except String Nat

/-- One discovered source file: its path, its external-call outcomes, an
optional exception raised before the copy (progress callback or makedirs)
and an optional exception raised by shutil.copy2 itself. -/
structure FileJob where
  path : String
  oracles : Oracles
  preFault : Option String
  copyFault : Option String

/-- The results dictionary of process_and_organize_files. Category counts
form an insertion-ordered association list, as a Python dict. The timestamp
attached to an error is an external observation and is omitted; an error
record is the pair of file path and exception text. -/
structure Results where
  total_files : Nat
  processed_files : Nat
  errors : List (String × String)
  categories : List (String × Nat)

/-- FileProcessor.get_image_info: format the PIL size and format, or the
string unknown when the decoder raised. -/
def get_image_info (probe : Except String (Nat × Nat × String)) : String :=
  match probe with
  | Except.ok (w, h, fmt) => pyStr w ++ "x" ++ pyStr h ++ "_" ++ fmt
  | Except.error _ => "unknown"

/-- FileProcessor.get_video_info: format width, height and fps when cv2
opened the capture, the string unknown when it did not open or raised. -/
def get_video_info (probe : Except String (Option (Nat × Nat × Nat))) : String :=
  match probe with
  | Except.ok (some (w, h, fps)) => pyStr w ++ "x" ++ pyStr h ++ "_" ++ pyStr fps ++ "fps"
  | Except.ok none => "unknown"
  | Except.error _ => "unknown"

/-- FileProcessor.get_audio_info: format duration and bitrate when mutagen
produced an info object, the string unknown otherwise or on an exception. -/
def get_audio_info (probe : Except String (Option (Nat × Nat))) : String :=
  match probe with
  | Except.ok (some (dur, br)) => pyStr dur ++ "s_" ++ pyStr br ++ "kbps"
  | Except.ok none => "unknown"
  | Except.error _ => "unknown"

/-- FileProcessor.get_document_info: dispatch on the lowercased suffix; the
probe value is the count the matching branch reads (pages, paragraphs,
slides or lines). The initial value document is kept for unhandled suffixes
and is also what the exception handler returns. -/
def get_document_info (filePath : String) (probe : Except String Nat) : String :=
  let ext := pyLower (pySuffix filePath)
  if ext = ".pdf" then
    match probe with
    | Except.ok n => pyStr n ++ "pages"
    | Except.error _ => "document"
  else if ext = ".docx" ∨ ext = ".doc" then
    match probe with
    | Except.ok n => pyStr n ++ "paragraphs"
    | Except.error _ => "document"
  else if ext = ".pptx" ∨ ext = ".ppt" then
    match probe with
    | Except.ok n => pyStr n ++ "slides"
    | Except.error _ => "document"
  else if ext = ".txt" then
    match probe with
    | Except.ok n => pyStr n ++ "lines"
    | Except.error _ => "document"
  else "document"

/-- The extension-ensuring step shared by create_organized_filename and the
pipeline body: keep the original suffix; when it is empty derive one from
the detected format tag, or fall back to the literal unknown extension. -/
def ensuredExtension (read : Except String (List Nat)) (filePath : String) : String :=
  if pySuffix filePath = "" then
    let format_type := (detect_file_type read filePath).2.1
    if format_type ≠ "" ∧ format_type ≠ "unknown" then "." ++ format_type
    else ".unknown"
  else pySuffix filePath

/-- FileProcessor.create_organized_filename: stem plus an underscore and the
category-specific metadata token when that token is nonempty and not the
string unknown, followed by the ensured extension. -/
def create_organized_filename (o : Oracles) (filePath : String) (category : String) : String :=
  let originalName := pyStem filePath
  let extension := ensuredExtension o.read filePath
  let info :=
    if category = "Images" then get_image_info o.imageProbe
    else if category = "Videos" then get_video_info o.videoProbe
    else if category = "Audio" then get_audio_info o.audioProbe
    else if category = "Documents" then get_document_info filePath o.docProbe
    else ""
  if info ≠ "" ∧ info ≠ "unknown" then originalName ++ "_" ++ info ++ extension
  else originalName ++ extension

/-- Destination directory choice of the pipeline body. -/
def destFolderFor (outputFolder : String) (organizeByType : Bool) (category : String) : String :=
  if organizeByType then joinPath outputFolder category else outputFolder

/-- The candidate destination file names tried by the duplicate-name loop:
the built name itself, then the split base with an underscore and the
counter inserted before the extension. -/
def nthCandidate (base ext : String) : Nat → String
  | 0 => base ++ ext
  | k + 1 => base ++ "_" ++ pyStr (k + 1) ++ ext

/-- The while loop over candidate destination paths, with explicit fuel;
returns the first candidate from index k that does not already exist. -/
def resolveFrom (fsp : List String) (cand : Nat → String) : Nat → Nat → Option String
  | _, 0 => none
  | k, fuel + 1 => if cand k ∈ fsp then resolveFrom fsp cand (k + 1) fuel else some (cand k)

/-- The duplicate-name handling of the pipeline body: starting from the
built file name, insert an incrementing counter before the extension until
the path does not exist. The fuel bound of one more than the number of
existing paths always suffices, as proved below, so the default is never
returned. -/
def resolveCollision (fsp : List String) (destFolder name : String) : String :=
  let base := (splitext name).1
  let ext := (splitext name).2
  (resolveFrom fsp (fun k => joinPath destFolder (nthCandidate base ext k)) 0
    (fsp.length + 1)).getD (joinPath destFolder name)

/-- The destination file name the body builds for one file before collision
handling: the metadata-enriched name when add_metadata_to_filename is set,
else the stem with the ensured extension. -/
def plannedFilename (addMetadata : Bool) (job : FileJob) : String :=
  if addMetadata then
    create_organized_filename job.oracles job.path
      (detect_file_type job.oracles.read job.path).1
  else pyStem job.path ++ ensuredExtension job.oracles.read job.path

/-- Append one error record, as the except branch of the body does. -/
def recordError (res : Results) (path msg : String) : Results :=
  { res with errors := res.errors ++ [(path, msg)] }

/-- The category-count update of the body: insert the category with count
zero when absent, then increment it. -/
def updateCategory : List (String × Nat) → String → List (String × Nat)
  | [], c => [(c, 1)]
  | (k, v) :: rest, c =>
    if k = c then (k, v + 1) :: rest else (k, v) :: updateCategory rest c

/-- The statistics update after a successful copy. -/
def recordSuccess (res : Results) (category : String) : Results :=
  { res with categories := updateCategory res.categories category,
             processed_files := res.processed_files + 1 }

/-- The body of the processing loop for one file, acting on the pair of the
results record and the list of existing destination paths. An exception
raised before the copy, or by the copy, lands in the except branch, which
records one error and leaves the destination unchanged; otherwise the
detected category directs the destination folder, the file name is built,
collisions are resolved, the copy creates the destination path and the
statistics are updated. -/
def processOne (organizeByType addMetadata : Bool) (outputFolder : String)
    (st : Results × List String) (job : FileJob) : Results × List String :=
  match job.preFault with
  | some e => (recordError st.1 job.path e, st.2)
  | none =>
    let category := (detect_file_type job.oracles.read job.path).1
    let destFolder := destFolderFor outputFolder organizeByType category
    let newFilename := plannedFilename addMetadata job
    let destPath := resolveCollision st.2 destFolder newFilename
    match job.copyFault with
    | some e => (recordError st.1 job.path e, st.2)
    | none => (recordSuccess st.1 category, destPath :: st.2)

/-- FileProcessor.process_and_organize_files: fold the per-file body over
the discovered files, starting from the zeroed results record with the
total set to the number of discovered files, and from the given list of
already existing destination paths. -/
def process_and_organize_files (jobs : List FileJob) (outputFolder : String)
    (organizeByType addMetadata : Bool) (fs0 : List String) : Results × List String :=
  jobs.foldl (processOne organizeByType addMetadata outputFolder)
    ({ total_files := jobs.length, processed_files := 0, errors := [], categories := [] }, fs0)

/-- The os.walk collection step over the input folder: a directory that
does not exist yields no files and raises nothing, so the walk of a missing
source is the empty listing. -/
def osWalkFiles (inputFolderExists : Bool) (entries : List FileJob) : List FileJob :=
  if inputFolderExists then entries else []

/-- The full run from the input folder: collect the files by walking the
source, then process them. No validation of either root happens here. -/
def process_and_organize_files_from (inputFolderExists : Bool) (entries : List FileJob)
    (outputFolder : String) (organizeByType addMetadata : Bool) (fs0 : List String) :
    Results × List String :=
  process_and_organize_files (osWalkFiles inputFolderExists entries)
    outputFolder organizeByType addMetadata fs0

/-- A convenient oracle bundle: the file reads as empty and every decoder
probe raises. Used to instantiate theorems at concrete inputs. -/
def emptyReadOracles : Oracles :=
  { read := Except.ok [], imageProbe := Except.error "probe",
    videoProbe := Except.error "probe", audioProbe := Except.error "probe",
    docProbe := Except.error "probe" }

/-- A fault-free job for a path with the above oracle bundle. -/
def plainJob (p : String) : FileJob :=
  { path := p, oracles := emptyReadOracles, preFault := none, copyFault := none }

deriving instance DecidableEq for Except

deriving instance DecidableEq for Oracles
deriving instance DecidableEq for FileJob
deriving instance DecidableEq for Results

/-! ### Lemmas about the decimal rendering -/

theorem charToDigit_digitToChar : ∀ n, n < 10 → charToDigit (digitToChar n) = n := by decide

theorem ofDecimal_append (cs : List Char) (c : Char) :
    ofDecimal (cs ++ [c]) = ofDecimal cs * 10 + charToDigit c := by
  simp [ofDecimal, List.foldl_append]

theorem ofDecimal_toDecimalAux : ∀ fuel n, n < fuel → ofDecimal (toDecimalAux fuel n) = n := by
  intro fuel
  induction fuel with
  | zero => intro n h; omega
  | succ f ih =>
    intro n h
    by_cases h10 : n < 10
    · simp [toDecimalAux, if_pos h10, ofDecimal, List.foldl, charToDigit_digitToChar n h10]
    · have hlt : n / 10 < f := by
        have h1 : n / 10 < n := Nat.div_lt_self (by omega) (by omega)
        omega
      rw [toDecimalAux, if_neg h10, ofDecimal_append, ih (n / 10) hlt,
        charToDigit_digitToChar (n % 10) (Nat.mod_lt n (by omega))]
      omega

theorem toDecimalAux_ne_nil (f n : Nat) (hf : 0 < f) : toDecimalAux f n ≠ [] := by
  match f, hf with
  | f + 1, _ =>
    by_cases h10 : n < 10
    · simp [toDecimalAux, if_pos h10]
    · rw [toDecimalAux, if_neg h10]
      simp

theorem toDecimal_inj {m n : Nat} (h : toDecimalAux (m + 1) m = toDecimalAux (n + 1) n) :
    m = n := by
  have hm := ofDecimal_toDecimalAux (m + 1) m (by omega)
  have hn := ofDecimal_toDecimalAux (n + 1) n (by omega)
  rw [← hm, ← hn, h]

theorem pyStr_length_pos (n : Nat) : 0 < (pyStr n).length := by
  have h := toDecimalAux_ne_nil (n + 1) n (by omega)
  have : (pyStr n).length = (toDecimalAux (n + 1) n).length := rfl
  rw [this]
  exact List.length_pos.mpr h

/-! ### Lemmas about name and path construction -/

theorem nthCandidate_injective (base ext : String) :
    Function.Injective (nthCandidate base ext) := by
  intro i j h
  match i, j with
  | 0, 0 => rfl
  | 0, j + 1 =>
    exfalso
    have hlen := congrArg String.length h
    simp only [nthCandidate, String.length_append] at hlen
    have := pyStr_length_pos (j + 1)
    omega
  | i + 1, 0 =>
    exfalso
    have hlen := congrArg String.length h
    simp only [nthCandidate, String.length_append] at hlen
    have := pyStr_length_pos (i + 1)
    omega
  | i + 1, j + 1 =>
    have hdata := congrArg String.data h
    simp only [nthCandidate, String.data_append] at hdata
    have h1 := List.append_cancel_right hdata
    have h2 := List.append_cancel_left h1
    have : i + 1 = j + 1 := toDecimal_inj h2
    omega

theorem joinPath_right_injective (folder : String) :
    Function.Injective (joinPath folder) := by
  intro a b h
  have hdata := congrArg String.data h
  simp only [joinPath, String.data_append] at hdata
  have h1 := List.append_cancel_left hdata
  exact String.ext h1

theorem splitext_recomb (name : String) : (splitext name).1 ++ (splitext name).2 = name := by
  unfold splitext
  split
  · apply String.ext
    simp [String.data_append]
  · split
    · apply String.ext
      simp [String.data_append]
    · apply String.ext
      simp [String.data_append]

/-! ### Lemmas about the collision-resolution loop -/

theorem resolveFrom_eq_some {fsp : List String} {cand : Nat → String} :
    ∀ {fuel k c}, resolveFrom fsp cand k fuel = some c → c ∉ fsp ∧ ∃ m, c = cand m := by
  intro fuel
  induction fuel with
  | zero => intro k c h; simp [resolveFrom] at h
  | succ f ih =>
    intro k c h
    rw [resolveFrom] at h
    by_cases hm : cand k ∈ fsp
    · rw [if_pos hm] at h
      exact ih h
    · rw [if_neg hm] at h
      injection h with h
      subst h
      exact ⟨hm, k, rfl⟩

theorem resolveFrom_isSome {fsp : List String} {cand : Nat → String} :
    ∀ fuel k, (∃ i, i < fuel ∧ cand (k + i) ∉ fsp) →
      (resolveFrom fsp cand k fuel).isSome = true := by
  intro fuel
  induction fuel with
  | zero =>
    rintro k ⟨i, hi, -⟩
    omega
  | succ f ih =>
    rintro k ⟨i, hi, hfree⟩
    rw [resolveFrom]
    by_cases hm : cand k ∈ fsp
    · rw [if_pos hm]
      have hiz : i ≠ 0 := by
        rintro rfl
        exact hfree hm
      apply ih
      refine ⟨i - 1, by omega, ?_⟩
      have heq : k + 1 + (i - 1) = k + i := by omega
      rw [heq]
      exact hfree
    · rw [if_neg hm]
      rfl

theorem exists_free_candidate (fsp : List String) (cand : Nat → String)
    (hinj : Function.Injective cand) : ∃ i, i < fsp.length + 1 ∧ cand i ∉ fsp := by
  by_contra hcon
  push_neg at hcon
  have hnd : ((List.range (fsp.length + 1)).map cand).Nodup :=
    (List.nodup_range _).map hinj
  have hsub : ((List.range (fsp.length + 1)).map cand).toFinset ⊆ fsp.toFinset := by
    intro x hx
    rw [List.mem_toFinset] at hx ⊢
    obtain ⟨i, hi, rfl⟩ := List.mem_map.mp hx
    exact hcon i (List.mem_range.mp hi)
  have h1 : ((List.range (fsp.length + 1)).map cand).toFinset.card = fsp.length + 1 := by
    rw [List.toFinset_card_of_nodup hnd, List.length_map, List.length_range]
  have h2 := Finset.card_le_card hsub
  have h3 := fsp.toFinset_card_le
  omega

theorem candFun_injective (folder base ext : String) :
    Function.Injective (fun k => joinPath folder (nthCandidate base ext k)) := by
  intro i j h
  exact nthCandidate_injective base ext (joinPath_right_injective folder h)

theorem resolveCollision_resolves (fsp : List String) (folder name : String) :
    resolveFrom fsp
      (fun k => joinPath folder (nthCandidate (splitext name).1 (splitext name).2 k)) 0
      (fsp.length + 1) = some (resolveCollision fsp folder name) := by
  obtain ⟨i, hi, hfree⟩ :=
    exists_free_candidate fsp _ (candFun_injective folder (splitext name).1 (splitext name).2)
  have hsome := @resolveFrom_isSome fsp
    (fun k => joinPath folder (nthCandidate (splitext name).1 (splitext name).2 k))
    (fsp.length + 1) 0 ⟨i, hi, by simpa using hfree⟩
  obtain ⟨c, hc⟩ := Option.isSome_iff_exists.mp hsome
  simp only [resolveCollision]
  rw [hc]
  simp

theorem resolveCollision_not_mem (fsp : List String) (folder name : String) :
    resolveCollision fsp folder name ∉ fsp :=
  (resolveFrom_eq_some (resolveCollision_resolves fsp folder name)).1

theorem resolveCollision_shape (fsp : List String) (folder name : String) :
    ∃ k, resolveCollision fsp folder name =
      joinPath folder (nthCandidate (splitext name).1 (splitext name).2 k) :=
  (resolveFrom_eq_some (resolveCollision_resolves fsp folder name)).2

/-! ### Lemmas about the processing loop -/

theorem processOne_snd (ob am : Bool) (out : String) (st : Results × List String)
    (job : FileJob) :
    (processOne ob am out st job).2 = st.2 ∨
      ∃ p, (processOne ob am out st job).2 = p :: st.2 ∧ p ∉ st.2 ∧
        ∃ k, p = joinPath (destFolderFor out ob (detect_file_type job.oracles.read job.path).1)
          (nthCandidate (splitext (plannedFilename am job)).1
            (splitext (plannedFilename am job)).2 k) := by
  unfold processOne
  cases hp : job.preFault with
  | some e => exact Or.inl rfl
  | none =>
    cases hc : job.copyFault with
    | some e => exact Or.inl rfl
    | none =>
      right
      refine ⟨_, rfl, resolveCollision_not_mem _ _ _, resolveCollision_shape _ _ _⟩

theorem processOne_snd_success (ob am : Bool) (out : String) (st : Results × List String)
    (job : FileJob) (hp : job.preFault = none) (hc : job.copyFault = none) :
    (processOne ob am out st job).2 =
      resolveCollision st.2
        (destFolderFor out ob (detect_file_type job.oracles.read job.path).1)
        (plannedFilename am job) :: st.2 := by
  unfold processOne
  rw [hp, hc]

theorem foldl_fs (ob am : Bool) (out : String) :
    ∀ (jobs : List FileJob) (st : Results × List String),
      ∃ added : List String,
        (jobs.foldl (processOne ob am out) st).2 = added ++ st.2 ∧
        added.Nodup ∧ (∀ p ∈ added, p ∉ st.2) ∧
        (∀ p ∈ added, ∃ j ∈ jobs, ∃ k,
          p = joinPath (destFolderFor out ob (detect_file_type j.oracles.read j.path).1)
            (nthCandidate (splitext (plannedFilename am j)).1
              (splitext (plannedFilename am j)).2 k)) := by
  intro jobs
  induction jobs with
  | nil =>
    intro st
    exact ⟨[], rfl, List.nodup_nil, by simp, by simp⟩
  | cons j rest ih =>
    intro st
    obtain ⟨added, h1, h2, h3, h4⟩ := ih (processOne ob am out st j)
    rcases processOne_snd ob am out st j with heq | ⟨p, heq, hpnot, hshape⟩
    · refine ⟨added, ?_, h2, ?_, ?_⟩
      · rw [List.foldl_cons, h1, heq]
      · intro q hq
        have hq2 := h3 q hq
        rw [heq] at hq2
        exact hq2
      · intro q hq
        obtain ⟨j2, hj2, hk⟩ := h4 q hq
        exact ⟨j2, List.mem_cons_of_mem _ hj2, hk⟩
    · have hpadd : p ∉ added := by
        intro hmem
        have := h3 p hmem
        rw [heq] at this
        exact this (List.mem_cons_self _ _)
      refine ⟨added ++ [p], ?_, ?_, ?_, ?_⟩
      · rw [List.foldl_cons, h1, heq, List.append_assoc]
        rfl
      · rw [List.nodup_append]
        refine ⟨h2, List.nodup_singleton p, ?_⟩
        intro a ha hb
        rw [List.mem_singleton] at hb
        subst hb
        exact hpadd ha
      · intro q hq
        rcases List.mem_append.mp hq with hq | hq
        · have hq2 := h3 q hq
          rw [heq] at hq2
          intro hmem
          exact hq2 (List.mem_cons_of_mem _ hmem)
        · rw [List.mem_singleton] at hq
          subst hq
          exact hpnot
      · intro q hq
        rcases List.mem_append.mp hq with hq | hq
        · obtain ⟨j2, hj2, hk⟩ := h4 q hq
          exact ⟨j2, List.mem_cons_of_mem _ hj2, hk⟩
        · rw [List.mem_singleton] at hq
          subst hq
          exact ⟨j, List.mem_cons_self _ _, hshape⟩

theorem foldl_fs_length (ob am : Bool) (out : String) :
    ∀ (jobs : List FileJob) (st : Results × List String),
      (∀ j ∈ jobs, j.preFault = none ∧ j.copyFault = none) →
      (jobs.foldl (processOne ob am out) st).2.length = st.2.length + jobs.length := by
  intro jobs
  induction jobs with
  | nil => intro st _; rfl
  | cons j rest ih =>
    intro st hff
    have hj := hff j (List.mem_cons_self _ _)
    have hrest : ∀ j2 ∈ rest, j2.preFault = none ∧ j2.copyFault = none :=
      fun j2 hj2 => hff j2 (List.mem_cons_of_mem _ hj2)
    rw [List.foldl_cons, ih (processOne ob am out st j) hrest,
      processOne_snd_success ob am out st j hj.1 hj.2]
    simp [List.length_cons]
    omega

theorem updateCategory_sum (l : List (String × Nat)) (c : String) :
    ((updateCategory l c).map Prod.snd).sum = (l.map Prod.snd).sum + 1 := by
  induction l with
  | nil => simp [updateCategory]
  | cons kv rest ih =>
    obtain ⟨k, v⟩ := kv
    by_cases h : k = c
    · simp [updateCategory, if_pos h]
      omega
    · simp [updateCategory, if_neg h, ih]
      omega

theorem processOne_stats (ob am : Bool) (out : String) (st : Results × List String)
    (job : FileJob) :
    (processOne ob am out st job).1.total_files = st.1.total_files ∧
    (processOne ob am out st job).1.processed_files +
        (processOne ob am out st job).1.errors.length =
      st.1.processed_files + st.1.errors.length + 1 ∧
    (processOne ob am out st job).1.processed_files +
        (st.1.categories.map Prod.snd).sum =
      st.1.processed_files + ((processOne ob am out st job).1.categories.map Prod.snd).sum := by
  unfold processOne
  cases hp : job.preFault with
  | some e =>
    simp [recordError]
    omega
  | none =>
    cases hc : job.copyFault with
    | some e =>
      simp [recordError]
      omega
    | none =>
      simp [recordSuccess, updateCategory_sum]
      omega

theorem foldl_stats (ob am : Bool) (out : String) :
    ∀ (jobs : List FileJob) (st : Results × List String),
      (jobs.foldl (processOne ob am out) st).1.total_files = st.1.total_files ∧
      (jobs.foldl (processOne ob am out) st).1.processed_files +
          (jobs.foldl (processOne ob am out) st).1.errors.length =
        st.1.processed_files + st.1.errors.length + jobs.length ∧
      (jobs.foldl (processOne ob am out) st).1.processed_files +
          (st.1.categories.map Prod.snd).sum =
        st.1.processed_files +
          ((jobs.foldl (processOne ob am out) st).1.categories.map Prod.snd).sum := by
  intro jobs
  induction jobs with
  | nil => intro st; exact ⟨rfl, by simp, by simp⟩
  | cons j rest ih =>
    intro st
    obtain ⟨s1, s2, s3⟩ := processOne_stats ob am out st j
    obtain ⟨i1, i2, i3⟩ := ih (processOne ob am out st j)
    refine ⟨by rw [List.foldl_cons, i1, s1], ?_, ?_⟩
    · rw [List.foldl_cons]
      rw [List.length_cons]
      omega
    · rw [List.foldl_cons]
      omega

/-! ### Lemmas about the signature scan -/

theorem findSig_first (header : List Nat) :
    ∀ (l : List (List Nat × String × String)) (i : Nat) (hi : i < l.length),
      startsWith header (l.get ⟨i, hi⟩).1 = true →
      (∀ j (hj : j < i), startsWith header (l.get ⟨j, Nat.lt_trans hj hi⟩).1 = false) →
      findSig header l = some ((l.get ⟨i, hi⟩).2.1, (l.get ⟨i, hi⟩).2.2) := by
  intro l
  induction l with
  | nil =>
    intro i hi
    simp at hi
  | cons entry rest ih =>
    intro i hi hmatch hbefore
    cases i with
    | zero =>
      obtain ⟨sig, cat, fmt⟩ := entry
      simp only [List.get] at hmatch ⊢
      rw [findSig, if_pos hmatch]
    | succ i =>
      have h0 : startsWith header entry.1 = false := hbefore 0 (Nat.succ_pos i)
      obtain ⟨sig, cat, fmt⟩ := entry
      simp only [List.get] at hmatch h0 ⊢
      rw [findSig, if_neg (by rw [h0]; exact Bool.false_ne_true)]
      exact ih i (Nat.lt_of_succ_lt_succ hi) hmatch
        (fun j hj => hbefore (j + 1) (Nat.succ_lt_succ hj))

theorem startsWith_append_self : ∀ (sig t : List Nat), startsWith (sig ++ t) sig = true := by
  intro sig
  induction sig with
  | nil => intro t; simp [startsWith]
  | cons s ss ih => intro t; simp [startsWith, ih]

theorem startsWith_cons_ne {h s : Nat} (hne : h ≠ s) (hs ss : List Nat) :
    startsWith (h :: hs) (s :: ss) = false := by
  simp [startsWith, hne]

theorem detect_magic (contents : List Nat) (path : String) (i : Nat)
    (hi : i < signatures.length)
    (hm : startsWith (contents.take 32) (signatures.get ⟨i, hi⟩).1 = true)
    (hb : ∀ j (hj : j < i),
      startsWith (contents.take 32) (signatures.get ⟨j, Nat.lt_trans hj hi⟩).1 = false) :
    detect_file_type (Except.ok contents) path =
      ((signatures.get ⟨i, hi⟩).2.1, (signatures.get ⟨i, hi⟩).2.2, "magic_bytes") := by
  simp only [detect_file_type]
  rw [findSig_first (contents.take 32) signatures i hi hm hb]

theorem detect_ext_fallback (contents : List Nat) (path : String) (cat : String)
    (h1 : findSig (contents.take 32) signatures = none)
    (h2 : extLookup (pyLower (pySuffix path)) SUPPORTED_FORMATS = some cat) :
    detect_file_type (Except.ok contents) path =
      (cat, (pyLower (pySuffix path)).drop 1, "file_extension") := by
  simp only [detect_file_type]
  rw [h1, h2]

theorem detect_no_match (contents : List Nat) (path : String)
    (h1 : findSig (contents.take 32) signatures = none)
    (h2 : extLookup (pyLower (pySuffix path)) SUPPORTED_FORMATS = none) :
    detect_file_type (Except.ok contents) path = ("Other", "unknown", "unknown") := by
  simp only [detect_file_type]
  rw [h1, h2]

theorem get_document_info_error (path e : String) :
    get_document_info path (Except.error e) = "document" := by
  simp only [get_document_info]
  split_ifs <;> rfl

/-! ### The claims -/

/-- C1: for every file whose first bytes start with a supported magic
prefix, classification tests the signature table in its fixed declaration
order and the first matching prefix wins, regardless of the extension of
the file; in particular a header starting with the office bytes 50 4B 03 04
yields Documents office even though the later two-byte 50 4B entry for
Archives zip also matches, and a header starting with RIFF yields Videos
webp even when the remaining bytes are RIFF audio; the method is
magic_bytes in every such case. -/
theorem claim1_magic_declaration_order :
    (∀ (contents : List Nat) (path : String) (i : Nat) (hi : i < signatures.length),
      startsWith (contents.take 32) (signatures.get ⟨i, hi⟩).1 = true →
      (∀ j (hj : j < i),
        startsWith (contents.take 32) (signatures.get ⟨j, Nat.lt_trans hj hi⟩).1 = false) →
      detect_file_type (Except.ok contents) path =
        ((signatures.get ⟨i, hi⟩).2.1, (signatures.get ⟨i, hi⟩).2.2, "magic_bytes")) ∧
    (∀ (rest : List Nat) (path : String),
      detect_file_type (Except.ok ([0x50, 0x4B, 0x03, 0x04] ++ rest)) path =
        ("Documents", "office", "magic_bytes")) ∧
    (∀ (rest : List Nat) (path : String),
      detect_file_type (Except.ok ([0x52, 0x49, 0x46, 0x46] ++ rest)) path =
        ("Videos", "webp", "magic_bytes")) := by
  refine ⟨detect_magic, ?_, ?_⟩
  · intro rest path
    have htake : List.take 32 ([0x50, 0x4B, 0x03, 0x04] ++ rest) =
        [0x50, 0x4B, 0x03, 0x04] ++ List.take 28 rest := by
      rw [List.take_append_eq_append_take]
      rfl
    refine detect_magic _ path 13 (by decide) ?_ ?_
    · rw [htake]
      exact startsWith_append_self _ _
    · intro j hj
      rw [htake]
      interval_cases j <;> exact startsWith_cons_ne (by decide) _ _
  · intro rest path
    have htake : List.take 32 ([0x52, 0x49, 0x46, 0x46] ++ rest) =
        [0x52, 0x49, 0x46, 0x46] ++ List.take 28 rest := by
      rw [List.take_append_eq_append_take]
      rfl
    refine detect_magic _ path 9 (by decide) ?_ ?_
    · rw [htake]
      exact startsWith_append_self _ _
    · intro j hj
      rw [htake]
      interval_cases j <;> exact startsWith_cons_ne (by decide) _ _

theorem claim1_witness :
    detect_file_type (Except.ok [0x50, 0x4B, 0x03, 0x04]) "a/music.mp3" =
      ("Documents", "office", "magic_bytes") ∧
    detect_file_type (Except.ok ([0x52, 0x49, 0x46, 0x46] ++ [0x57, 0x41, 0x56, 0x45])) "a/song.wav" =
      ("Videos", "webp", "magic_bytes") :=
  ⟨claim1_magic_declaration_order.1 [0x50, 0x4B, 0x03, 0x04] "a/music.mp3" 13
      (by decide) (by decide) (by decide),
   claim1_magic_declaration_order.2.2 [0x57, 0x41, 0x56, 0x45] "a/song.wav"⟩

/-- C3: the classifier never raises: an I/O exception while reading the
header yields the triple with category Error, the error text as the format
tag and method error, and such a file does not abort the run; the body
counts it as processed under the Error category and records no run error. -/
theorem claim3_io_error_handling :
    (∀ (e : String) (path : String),
      detect_file_type (Except.error e) path = ("Error", e, "error")) ∧
    (∀ (ob am : Bool) (out : String) (st : Results × List String) (job : FileJob)
      (e : String),
      job.oracles.read = Except.error e → job.preFault = none → job.copyFault = none →
      (processOne ob am out st job).1.processed_files = st.1.processed_files + 1 ∧
      (processOne ob am out st job).1.errors = st.1.errors ∧
      (processOne ob am out st job).1.categories = updateCategory st.1.categories "Error") := by
  constructor
  · intro e path
    rfl
  · intro ob am out st job e hread hp hc
    unfold processOne
    rw [hp, hc, hread]
    exact ⟨rfl, rfl, rfl⟩

theorem claim3_witness :
    detect_file_type (Except.error "read failed") "a/x.txt" = ("Error", "read failed", "error") ∧
    (processOne true true "out"
      ({ total_files := 1, processed_files := 0, errors := [], categories := [] }, [])
      { path := "a/x.txt", oracles := { emptyReadOracles with read := Except.error "read failed" },
        preFault := none, copyFault := none }).1.processed_files = 1 :=
  ⟨claim3_io_error_handling.1 "read failed" "a/x.txt",
   (claim3_io_error_handling.2 true true "out"
      ({ total_files := 1, processed_files := 0, errors := [], categories := [] }, [])
      { path := "a/x.txt", oracles := { emptyReadOracles with read := Except.error "read failed" },
        preFault := none, copyFault := none } "read failed" rfl rfl rfl).1⟩

/-- C7: when no magic prefix matches and the lowercased filename extension
appears in the static extension table, classification returns the category
the table maps that extension to, the format tag is the lowercased
extension with its leading dot stripped, and the method is file_extension. -/
theorem claim7_extension_fallback :
    ∀ (contents : List Nat) (path : String) (cat : String),
      findSig (contents.take 32) signatures = none →
      extLookup (pyLower (pySuffix path)) SUPPORTED_FORMATS = some cat →
      detect_file_type (Except.ok contents) path =
        (cat, (pyLower (pySuffix path)).drop 1, "file_extension") :=
  detect_ext_fallback

theorem claim7_witness :
    detect_file_type (Except.ok []) "a/photo.JPG" = ("Images", "jpg", "file_extension") :=
  claim7_extension_fallback [] "a/photo.JPG" "Images" (by decide) (by decide)

/-- C8 counterexample: a zero-byte file with a known extension is
classified through the extension fallback, so its category is neither
Other nor Error and its method is neither unknown nor error, contradicting
the claim that every zero-byte file lands in Other or Error. -/
theorem claim8_counterexample :
    detect_file_type (Except.ok []) "a/empty.txt" = ("Documents", "txt", "file_extension") ∧
    ¬(((detect_file_type (Except.ok []) "a/empty.txt").1 = "Other" ∨
        (detect_file_type (Except.ok []) "a/empty.txt").1 = "Error") ∧
      ((detect_file_type (Except.ok []) "a/empty.txt").2.2 = "unknown" ∨
        (detect_file_type (Except.ok []) "a/empty.txt").2.2 = "error")) := by
  constructor
  · rfl
  · decide

/-- C8 amended: a zero-byte file never crashes the classifier; when its
extension is not in the static table the result is Other unknown unknown on
a successful read and Error with the error text on a failed read; when its
extension is known the extension fallback applies instead. -/
theorem claim8_amended :
    ∀ (path : String),
      (extLookup (pyLower (pySuffix path)) SUPPORTED_FORMATS = none →
        detect_file_type (Except.ok []) path = ("Other", "unknown", "unknown")) ∧
      (∀ cat, extLookup (pyLower (pySuffix path)) SUPPORTED_FORMATS = some cat →
        detect_file_type (Except.ok []) path =
          (cat, (pyLower (pySuffix path)).drop 1, "file_extension")) ∧
      (∀ e, detect_file_type (Except.error e) path = ("Error", e, "error")) := by
  intro path
  refine ⟨fun h => detect_no_match [] path rfl h,
    fun cat h => detect_ext_fallback [] path cat rfl h, fun e => rfl⟩

theorem claim8_witness :
    detect_file_type (Except.ok []) "a/blob.qqq" = ("Other", "unknown", "unknown") :=
  (claim8_amended "a/blob.qqq").1 (by decide)

/-- C5 counterexample: a document decoder failure returns the token
document, not unknown, and that token IS appended to the destination file
name, contradicting the claim that every failed probe degrades to exactly
unknown and never reaches the name. -/
theorem claim5_counterexample :
    get_document_info "docs/broken.pdf" (Except.error "bad pdf") = "document" ∧
    ("document" : String) ≠ "unknown" ∧
    create_organized_filename { emptyReadOracles with docProbe := Except.error "bad pdf" }
      "docs/broken.pdf" "Documents" = "broken_document.pdf" := by
  refine ⟨rfl, by decide, by decide⟩

/-- C5 amended: failures of the image, video and audio decoders degrade the
token to exactly unknown and no token is appended to the destination file
name; a document decoder failure instead degrades to the token document,
which is appended to the name. -/
theorem claim5_amended :
    (∀ e, get_image_info (Except.error e) = "unknown") ∧
    (∀ e, get_video_info (Except.error e) = "unknown") ∧
    (∀ e, get_audio_info (Except.error e) = "unknown") ∧
    (∀ path e, get_document_info path (Except.error e) = "document") ∧
    (∀ (o : Oracles) (path e : String), o.imageProbe = Except.error e →
      create_organized_filename o path "Images" =
        pyStem path ++ ensuredExtension o.read path) ∧
    (∀ (o : Oracles) (path e : String), o.videoProbe = Except.error e →
      create_organized_filename o path "Videos" =
        pyStem path ++ ensuredExtension o.read path) ∧
    (∀ (o : Oracles) (path e : String), o.audioProbe = Except.error e →
      create_organized_filename o path "Audio" =
        pyStem path ++ ensuredExtension o.read path) ∧
    (∀ (o : Oracles) (path e : String), o.docProbe = Except.error e →
      create_organized_filename o path "Documents" =
        pyStem path ++ "_" ++ "document" ++ ensuredExtension o.read path) := by
  refine ⟨fun e => rfl, fun e => rfl, fun e => rfl, get_document_info_error, ?_, ?_, ?_, ?_⟩
  · intro o path e h
    simp [create_organized_filename, get_image_info, h]
  · intro o path e h
    simp [create_organized_filename, get_video_info, h]
  · intro o path e h
    simp [create_organized_filename, get_audio_info, h]
  · intro o path e h
    simp [create_organized_filename, get_document_info_error, h]

theorem claim5_witness :
    create_organized_filename { emptyReadOracles with docProbe := Except.error "corrupt" }
      "d/notes.pdf" "Documents" =
      pyStem "d/notes.pdf" ++ "_" ++ "document" ++ ensuredExtension (Except.ok []) "d/notes.pdf" :=
  claim5_amended.2.2.2.2.2.2.2
    { emptyReadOracles with docProbe := Except.error "corrupt" } "d/notes.pdf" "corrupt" rfl

/-- C6 counterexample: with add_metadata_to_filename false, a run over two
files that are both named x.txt produces the destination file name x_1.txt
for the second of them, which differs from the stem with the extension, so
not every destination file name equals the original stem followed by the
extension. -/
theorem claim6_counterexample :
    (process_and_organize_files [plainJob "a/x.txt", plainJob "b/x.txt"]
        "out" true false []).2 =
      ["out/Documents/x_1.txt", "out/Documents/x.txt"] ∧
    pyBasename "out/Documents/x_1.txt" ≠ pyStem "a/x.txt" ++ pySuffix "a/x.txt" ∧
    pyBasename "out/Documents/x_1.txt" ≠ pyStem "b/x.txt" ++ pySuffix "b/x.txt" := by
  decide

/-- C6 amended: with addMetadata false every destination path produced by a
run is some collision candidate of the stem with the ensured extension in
the category folder: the name itself for candidate zero, or the name with
an underscore and a counter inserted immediately before the extension; no
metadata token is ever appended. -/
theorem claim6_amended :
    ∀ (jobs : List FileJob) (out : String) (ob : Bool) (fs0 : List String) (p : String),
      p ∈ (process_and_organize_files jobs out ob false fs0).2 → p ∉ fs0 →
      ∃ j ∈ jobs, ∃ k,
        p = joinPath (destFolderFor out ob (detect_file_type j.oracles.read j.path).1)
          (nthCandidate
            (splitext (pyStem j.path ++ ensuredExtension j.oracles.read j.path)).1
            (splitext (pyStem j.path ++ ensuredExtension j.oracles.read j.path)).2 k) := by
  intro jobs out ob fs0 p hp hnot
  obtain ⟨added, h1, h2, h3, h4⟩ := foldl_fs ob false out jobs
    ({ total_files := jobs.length, processed_files := 0, errors := [], categories := [] }, fs0)
  simp only [process_and_organize_files] at hp
  rw [h1] at hp
  rcases List.mem_append.mp hp with hp | hp
  · obtain ⟨j, hj, k, hk⟩ := h4 p hp
    exact ⟨j, hj, k, hk⟩
  · exact absurd hp hnot

theorem claim6_witness :
    ∃ j ∈ [plainJob "a/x.txt", plainJob "b/x.txt"], ∃ k,
      "out/Documents/x.txt" =
        joinPath (destFolderFor "out" true (detect_file_type j.oracles.read j.path).1)
          (nthCandidate
            (splitext (pyStem j.path ++ ensuredExtension j.oracles.read j.path)).1
            (splitext (pyStem j.path ++ ensuredExtension j.oracles.read j.path)).2 k) :=
  claim6_amended [plainJob "a/x.txt", plainJob "b/x.txt"] "out" true [] "out/Documents/x.txt"
    (by decide) (by decide)

/-- C2: within one run the destination path construction never produces
two equal destination paths and never overwrites a pre-existing file: the
list of paths added by a run is duplicate free and disjoint from the paths
that already existed; when no file faults, a run adds exactly one path per
file, so running the pipeline twice into the same destination doubles the
file count. -/
theorem claim2_no_overwrite :
    ∀ (jobs : List FileJob) (out : String) (ob am : Bool) (fs0 : List String),
      (∃ added : List String,
        (process_and_organize_files jobs out ob am fs0).2 = added ++ fs0 ∧
        added.Nodup ∧ (∀ p ∈ added, p ∉ fs0) ∧
        ((∀ j ∈ jobs, j.preFault = none ∧ j.copyFault = none) →
          added.length = jobs.length)) ∧
      ((∀ j ∈ jobs, j.preFault = none ∧ j.copyFault = none) →
        (process_and_organize_files jobs out ob am
            (process_and_organize_files jobs out ob am fs0).2).2.length =
          fs0.length + 2 * jobs.length) := by
  intro jobs out ob am fs0
  constructor
  · obtain ⟨added, h1, h2, h3, h4⟩ := foldl_fs ob am out jobs
      ({ total_files := jobs.length, processed_files := 0, errors := [], categories := [] }, fs0)
    refine ⟨added, h1, h2, h3, fun hff => ?_⟩
    have hlen := foldl_fs_length ob am out jobs
      ({ total_files := jobs.length, processed_files := 0, errors := [], categories := [] }, fs0)
      hff
    rw [h1] at hlen
    simp only [List.length_append] at hlen
    omega
  · intro hff
    have hl1 := foldl_fs_length ob am out jobs
      ({ total_files := jobs.length, processed_files := 0, errors := [], categories := [] }, fs0)
      hff
    have hl2 := foldl_fs_length ob am out jobs
      ({ total_files := jobs.length, processed_files := 0, errors := [], categories := [] },
        (process_and_organize_files jobs out ob am fs0).2) hff
    simp only [process_and_organize_files] at hl1 hl2 ⊢
    omega

theorem claim2_witness :
    (process_and_organize_files [plainJob "a/x.txt"] "out" true true
        (process_and_organize_files [plainJob "a/x.txt"] "out" true true []).2).2.length =
      List.length ([] : List String) + 2 * 1 :=
  (claim2_no_overwrite [plainJob "a/x.txt"] "out" true true []).2 (by decide)

/-- C10: the statistics returned by a run satisfy the accounting
invariant: the processed count equals the sum of the per-category counts,
and the processed count plus the number of recorded errors equals the
total number of discovered files. -/
theorem claim10_statistics_invariant :
    ∀ (jobs : List FileJob) (out : String) (ob am : Bool) (fs0 : List String),
      (process_and_organize_files jobs out ob am fs0).1.total_files = jobs.length ∧
      (process_and_organize_files jobs out ob am fs0).1.processed_files =
        (((process_and_organize_files jobs out ob am fs0).1.categories).map Prod.snd).sum ∧
      (process_and_organize_files jobs out ob am fs0).1.processed_files +
          (process_and_organize_files jobs out ob am fs0).1.errors.length =
        (process_and_organize_files jobs out ob am fs0).1.total_files := by
  intro jobs out ob am fs0
  obtain ⟨h1, h2, h3⟩ := foldl_stats ob am out jobs
    ({ total_files := jobs.length, processed_files := 0, errors := [], categories := [] }, fs0)
  simp only [process_and_organize_files]
  dsimp only at h1 h2 h3
  simp only [List.map_nil, List.sum_nil, List.length_nil] at h2 h3
  exact ⟨h1, by omega, by omega⟩

/-- C4: the processing loop contains no cancellation check at all: the
stop control of the interface only flips a boolean that the loop never
reads, so a run visits and copies every discovered file even when a stop
was requested; here a two-file run completes with both files processed and
both destination paths created. -/
theorem claim4_no_cancellation_check :
    (process_and_organize_files [plainJob "in/a.txt", plainJob "in/b.txt"]
        "out" true false []).1.processed_files = 2 ∧
    (process_and_organize_files [plainJob "in/a.txt", plainJob "in/b.txt"]
        "out" true false []).1.total_files = 2 ∧
    (process_and_organize_files [plainJob "in/a.txt", plainJob "in/b.txt"]
        "out" true false []).2.length = 2 := by
  decide

/-- C9 counterexample: a run whose source root does not exist is
indistinguishable from a successful run over an empty source: it returns
the ordinary zeroed statistics with no recorded error and touches nothing,
so no configuration error is surfaced and nothing fails fast. -/
theorem claim9_counterexample :
    process_and_organize_files_from false [plainJob "in/a.txt"] "out" true true [] =
      process_and_organize_files_from true [] "out" true true [] ∧
    (process_and_organize_files_from false [plainJob "in/a.txt"] "out" true true []).1.errors
      = [] ∧
    (process_and_organize_files_from false [plainJob "in/a.txt"] "out" true true []).2 = [] := by
  decide

/-- C9 amended: the pipeline validates neither root: a nonexistent source
yields the empty walk, and the run returns zeroed statistics with no
errors and leaves the destination untouched, with no failure surfaced to
the caller; destination folders are only created lazily while processing
individual files. -/
theorem claim9_amended :
    ∀ (entries : List FileJob) (out : String) (ob am : Bool) (fs0 : List String),
      process_and_organize_files_from false entries out ob am fs0 =
        ({ total_files := 0, processed_files := 0, errors := [], categories := [] }, fs0) := by
  intro entries out ob am fs0
  rfl

end Metadata2File
